import Mathlib

/-!
Verification development for the client session/streaming engine of the
DSA-ChatBot repository.  The JavaScript sources are shallowly embedded:
strings are lists of characters, each stateful routine becomes an explicit
step function on a state structure, and asynchronous interleaving becomes a
list of scheduler events folded over the state.  Every definition follows a
named function of the sources (the part files and app/static/js/app-chat.js);
external platform facilities (fetch, JSON.parse, TextDecoder) enter as
oracle parameters.
-/

/-- Truthiness of a JavaScript string value: the empty string is falsy. -/
def jsTruthy (s : List Char) : Bool := s ≠ []

namespace Utils

/-- Loop of Utils.retryFunction (part_004 lines 75-86).  The operation is
represented by the outcome of each 0-indexed attempt; the result pairs the
value returned or error thrown (none when the attempt budget is zero and the
loop body never runs) with the list of delays awaited, in order. -/
def retryGo (op : Nat → Except E A) (baseDelay : Int) :
    Nat → Nat → Option (Except E A) × List Int
  | _, 0 => (none, [])
  | attempt, remaining + 1 =>
    match op attempt with
    | Except.ok a => (some (Except.ok a), [])
    | Except.error e =>
      if remaining = 0 then (some (Except.error e), [])
      else
        let rec1 := retryGo op baseDelay (attempt + 1) remaining
        (rec1.1, baseDelay * 2 ^ attempt :: rec1.2)

/-- Utils.retryFunction (part_004 lines 75-86): attempts are 0-indexed from 0
up to maxRetries - 1; a failed non-final attempt waits baseDelay * 2 ^ attempt
before the next invocation; the final failure is rethrown. -/
def retryFunction (op : Nat → Except E A) (maxRetries : Nat) (baseDelay : Int) :
    Option (Except E A) × List Int :=
  retryGo op baseDelay 0 maxRetries

/-- Loop of Utils.retryRequest (part_004 lines 1292-1305).  Attempts are
1-indexed; a failed non-final attempt waits delay * attempt. -/
def retryRequestGo (op : Nat → Except E A) (delay : Int) :
    Nat → Nat → Option (Except E A) × List Int
  | _, 0 => (none, [])
  | attempt, remaining + 1 =>
    match op attempt with
    | Except.ok a => (some (Except.ok a), [])
    | Except.error e =>
      if remaining = 0 then (some (Except.error e), [])
      else
        let rec1 := retryRequestGo op delay (attempt + 1) remaining
        (rec1.1, delay * (attempt : Int) :: rec1.2)

/-- Utils.retryRequest (part_004 lines 1292-1305): the duplicate retry
executor, with linear delays delay * attempt (attempt 1-indexed). -/
def retryRequest (op : Nat → Except E A) (maxRetries : Nat) (delay : Int) :
    Option (Except E A) × List Int :=
  retryRequestGo op delay 1 maxRetries

end Utils

/-- Client-side user record AppState.serverUser (part_004 lines 95, 605-611):
is_authenticated plus the identity fields; an absent field is the empty
string (falsy). -/
structure ServerUser where
  is_authenticated : Bool
  id : List Char
  name : List Char
  email : List Char
  picture : List Char
deriving DecidableEq, Repr

/-- ServerUser for the logged-out assignment AppState.serverUser =
(is_authenticated: false) with every identity field absent. -/
def loggedOutUser : ServerUser := ⟨false, [], [], [], []⟩

/-- Mutable app state touched by the storage restore routines: serverUser,
currentThreadId, the metrics object (authChecks, authFailures) of part_004
lines 101-107, and the sessionRestored counter of lines 1321-1326. -/
structure AppStateM where
  serverUser : ServerUser
  currentThreadId : List Char
  metrics : Nat × Nat
  sessionRestored : Nat
deriving DecidableEq, Repr

namespace StorageManager

/-- Backup record written by StorageManager.backupState (part_004 lines
175-189): capture timestamp, the stored user data (null when absent), the
thread id and the metrics snapshot. -/
structure StateBackup where
  timestamp : Int
  userData : Option ServerUser
  threadId : List Char
  metrics : Option (Nat × Nat)
deriving DecidableEq, Repr

/-- StorageManager.restoreState (part_004 lines 191-215): with a backup
present and Date.now() - backup.timestamp < 3600000 (one hour), each truthy
field of the backup is applied to the app state and true is returned;
otherwise false is returned and the state is untouched. -/
def restoreState (backup : Option StateBackup) (now : Int) (st : AppStateM) :
    Bool × AppStateM :=
  match backup with
  | none => (false, st)
  | some b =>
    if now - b.timestamp < 3600000 then
      let st1 := match b.userData with
        | some u => { st with serverUser := u }
        | none => st
      let st2 := if jsTruthy b.threadId then { st1 with currentThreadId := b.threadId }
        else st1
      let st3 := match b.metrics with
        | some m => { st2 with metrics := m }
        | none => st2
      (true, st3)
    else (false, st)

/-- Backup record written by StorageManager.backupSession (part_004 lines
1383-1393): the user object (null when absent), capture timestamp and
thread id. -/
structure SessionBackup where
  user : Option ServerUser
  timestamp : Int
  threadId : List Char
deriving DecidableEq, Repr

/-- StorageManager.restoreSession (part_004 lines 1395-1410): requires
backup, backup.user and backup.timestamp truthy (nonzero), and accepts the
backup when Date.now() - backup.timestamp < 24 * 60 * 60 * 1000 (24 hours),
applying the user, the truthy thread id and bumping sessionRestored. -/
def restoreSession (backup : Option SessionBackup) (now : Int) (st : AppStateM) :
    Bool × AppStateM :=
  match backup with
  | none => (false, st)
  | some b =>
    match b.user with
    | none => (false, st)
    | some u =>
      if b.timestamp ≠ 0 ∧ now - b.timestamp < 24 * 60 * 60 * 1000 then
        let st1 := { st with serverUser := u }
        let st2 := if jsTruthy b.threadId then { st1 with currentThreadId := b.threadId }
          else st1
        (true, { st2 with sessionRestored := st2.sessionRestored + 1 })
      else (false, st)

end StorageManager

namespace AuthManager

/-- Classification a run of checkAuthentication ends in: which of the three
state handlers (authenticatedState, sharedViewState, unauthenticatedState)
it invokes. -/
inductive SessionClass
  | authenticated
  | sharedReadOnly
  | unauthenticated
deriving DecidableEq, Repr

/-- AuthManager.checkAuthentication (part_004 lines 334-356 and 1499-1517):
the authenticated handler runs when user.is_authenticated, user.name and
user.email are all truthy; otherwise the shared-view handler when the body
attributes request it, else the unauthenticated handler.  The Bool is the
function's return value.  The user record itself is not modified by any
branch. -/
def checkAuthentication (user : ServerUser) (isSharedView : Bool)
    (sharedThreadId : List Char) : SessionClass × Bool :=
  if user.is_authenticated ∧ jsTruthy user.name ∧ jsTruthy user.email then
    (SessionClass.authenticated, true)
  else if isSharedView ∧ jsTruthy sharedThreadId ∧ sharedThreadId ≠ "null".data then
    (SessionClass.sharedReadOnly, false)
  else
    (SessionClass.unauthenticated, false)

/-- AuthManager.isAuthenticated (part_004 lines 697-699): reads only the
is_authenticated flag of serverUser. -/
def isAuthenticated (user : ServerUser) : Bool :=
  user.is_authenticated

/-- In-flight bookkeeping of performAuthCheck: the single guard flag
AppState.authCheckInProgress plus the number of verification requests
currently outstanding. -/
structure AuthFlight where
  authCheckInProgress : Bool
  inFlight : Nat
deriving DecidableEq, Repr

/-- Scheduler events for the in-flight model: start is one invocation of
performAuthCheck(force) run to its first await (online gives the
navigator.onLine value at that moment); finish is one outstanding request
settling, running the finally block. -/
inductive AuthEvt
  | start (force : Bool) (online : Bool)
  | finish
deriving DecidableEq, Repr

/-- Guard section of performAuthCheck (part_004 lines 519-534 and
1693-1706): a call returns at once when authCheckInProgress is set and force
is not, or when offline; otherwise it sets the flag and issues a request.
The finally block (lines 660-662 and 1828-1830) clears the flag when a
request settles. -/
def authStep (s : AuthFlight) : AuthEvt → AuthFlight
  | AuthEvt.start force online =>
    if s.authCheckInProgress ∧ ¬force then s
    else if ¬online then s
    else { authCheckInProgress := true, inFlight := s.inFlight + 1 }
  | AuthEvt.finish =>
    if 0 < s.inFlight then { authCheckInProgress := false, inFlight := s.inFlight - 1 }
    else s

/-- Fold of an event interleaving over the in-flight state. -/
def authRun (s : AuthFlight) (evts : List AuthEvt) : AuthFlight :=
  evts.foldl authStep s

/-- Initial in-flight state: flag clear, nothing outstanding. -/
def initFlight : AuthFlight := ⟨false, 0⟩

/-- Events that never pass force = true to performAuthCheck. -/
def unforced : AuthEvt → Bool
  | AuthEvt.start force _ => !force
  | AuthEvt.finish => true

/-- Verification endpoint response body (auth-status JSON). -/
structure AuthData where
  is_authenticated : Bool
  user_id : List Char
  name : List Char
  email : List Char
  picture : List Char
deriving DecidableEq, Repr

/-- Outcome of one performAuthCheck round trip, as the code distinguishes
them: a response object with ok = false and an HTTP status, a thrown
AbortError (timeout), another thrown error (network), or an ok response with
parsed data. -/
inductive AuthOutcome
  | httpFail (status : Nat)
  | timeout
  | netFail
  | ok (d : AuthData)
deriving DecidableEq, Repr

/-- User-visible toast notices issued inside the two performAuthCheck
duplicates (connectionTimeout is the retry notice the second duplicate
shows on a timed-out round). -/
inductive Toast
  | sessionExpired
  | serviceUnavailable
  | loggedOut
  | welcomeBack
  | authCheckFailed
  | connectionTimeout
deriving DecidableEq, Repr

/-- State read and written by performAuthCheck: the current serverUser, the
consecutive-failure counter sessionMetrics.authFailures, and the toasts
shown so far, in order. -/
structure AuthCheckState where
  serverUser : ServerUser
  authFailures : Nat
  notices : List Toast
deriving DecidableEq, Repr

/-- Body of performAuthCheck (part_004 lines 519-663) after the guard, as a
function of the round-trip outcome.  Non-ok responses bump the failure
counter and handle 401/503 specially; a state-flipping ok response rewrites
serverUser and returns before the counter reset at line 645; a non-flipping
ok response applies the identity-swap rule and resets the counter; a thrown
error bumps the counter and, when it is not a timeout and the count has
reached 3, shows the single authCheckFailed notice. -/
def performCheckStep (s : AuthCheckState) : AuthOutcome → AuthCheckState
  | AuthOutcome.httpFail status =>
    let s1 := { s with authFailures := s.authFailures + 1 }
    if status = 401 then
      if s1.serverUser.is_authenticated then
        { s1 with serverUser := loggedOutUser,
                  notices := s1.notices ++ [Toast.sessionExpired] }
      else s1
    else if status = 503 then
      { s1 with notices := s1.notices ++ [Toast.serviceUnavailable] }
    else s1
  | AuthOutcome.ok d =>
    if s.serverUser.is_authenticated ≠ d.is_authenticated then
      if d.is_authenticated then
        { s with serverUser := ⟨true, d.user_id, d.name, d.email, d.picture⟩,
                 notices := s.notices ++ [Toast.welcomeBack] }
      else
        { s with serverUser := loggedOutUser,
                 notices := s.notices ++ [Toast.loggedOut] }
    else
      let su := if d.is_authenticated ∧ jsTruthy s.serverUser.id ∧ jsTruthy d.user_id
                    ∧ s.serverUser.id ≠ d.user_id
        then (⟨true, d.user_id, d.name, d.email, d.picture⟩ : ServerUser)
        else s.serverUser
      { s with serverUser := su, authFailures := 0 }
  | AuthOutcome.timeout =>
    { s with authFailures := s.authFailures + 1 }
  | AuthOutcome.netFail =>
    let f := s.authFailures + 1
    { s with authFailures := f,
             notices := s.notices ++ (if 3 ≤ f then [Toast.authCheckFailed] else []) }

/-- Outcome of one round trip of the second performAuthCheck duplicate
(part_004 lines 1693-1831).  Its catch block reads navigator.onLine and
whether error.message includes the word fetch, so a thrown non-timeout
error carries those two observations. -/
inductive AuthOutcomeV2
  | httpFail (status : Nat)
  | timeout
  | netFail (online : Bool) (msgHasFetch : Bool)
  | ok (d : AuthData)
deriving DecidableEq, Repr

/-- Body of the second performAuthCheck duplicate (part_004 lines
1693-1831) after the guard.  It differs from the first: a non-ok response
bumps the counter and handles 401, while a 500-range status only logs; the
ok path never resets the failure counter (no reset statement exists in this
duplicate); a timeout bumps the counter and shows the connection-timeout
retry notice (line 1815); any other thrown error bumps the counter and,
when online and the message does not mention fetch, shows the
authCheckFailed notice at once (lines 1824-1826) - there is no
three-failure gate. -/
def performCheckStepV2 (s : AuthCheckState) : AuthOutcomeV2 → AuthCheckState
  | AuthOutcomeV2.httpFail status =>
    let s1 := { s with authFailures := s.authFailures + 1 }
    if status = 401 then
      if s1.serverUser.is_authenticated then
        { s1 with serverUser := loggedOutUser,
                  notices := s1.notices ++ [Toast.sessionExpired] }
      else s1
    else s1
  | AuthOutcomeV2.ok d =>
    if s.serverUser.is_authenticated ≠ d.is_authenticated then
      if d.is_authenticated then
        { s with serverUser := ⟨true, d.user_id, d.name, d.email, d.picture⟩,
                 notices := s.notices ++ [Toast.welcomeBack] }
      else
        { s with serverUser := loggedOutUser,
                 notices := s.notices ++ [Toast.loggedOut] }
    else
      let su := if d.is_authenticated ∧ jsTruthy s.serverUser.id ∧ jsTruthy d.user_id
                    ∧ s.serverUser.id ≠ d.user_id
        then (⟨true, d.user_id, d.name, d.email, d.picture⟩ : ServerUser)
        else s.serverUser
      { s with serverUser := su }
  | AuthOutcomeV2.timeout =>
    { s with authFailures := s.authFailures + 1,
             notices := s.notices ++ [Toast.connectionTimeout] }
  | AuthOutcomeV2.netFail online msgHasFetch =>
    { s with authFailures := s.authFailures + 1,
             notices := s.notices ++
               (if online ∧ ¬msgHasFetch then [Toast.authCheckFailed] else []) }

end AuthManager

namespace StreamingWriter

/-- One animation task spawned by StreamingWriter.writeText: its animation
id, the text to reveal, the next character index, whether its writeChar
promise has resolved, and how many times its onComplete callback has run. -/
structure WTask where
  id : Nat
  text : List Char
  index : Nat
  resolved : Bool
  completeFired : Nat
deriving DecidableEq, Repr

/-- Renderer state: the shared activeAnimations set (part_005 line 318,
app-chat.js line 354), the target surface's text content, and every task
spawned so far in spawn order. -/
structure WriterState where
  activeAnimations : List Nat
  element : List Char
  tasks : List WTask
deriving DecidableEq, Repr

/-- Cooperative scheduler events: start is one writeText call run to its
first await (with markdown disabled, so the plain writeChar loop runs);
step runs the pending writeChar continuation of the task at position tidx;
stopAll is StreamingWriter.stopAll clearing the whole set. -/
inductive WEvent
  | start (id : Nat) (text : List Char)
  | step (tidx : Nat)
  | stopAll
deriving DecidableEq, Repr

/-- Opening of StreamingWriter.writeText (part_005 lines 320-333,
app-chat.js lines 356-374): the fresh animation id is added to
activeAnimations - nothing is removed from it - the target is cleared, and
the writeChar loop of writePlain becomes a pending task. -/
def writeTextStart (s : WriterState) (id : Nat) (text : List Char) : WriterState :=
  { activeAnimations := id :: s.activeAnimations,
    element := [],
    tasks := s.tasks ++ [⟨id, text, 0, false, 0⟩] }

/-- One writeChar invocation of writePlain (part_005 lines 341-361,
app-chat.js lines 384-409) for the task at position tidx, together with the
continuation of writeText once the promise resolves: the resolve paths run
the onComplete callback (part_005 line 335, app-chat.js line 376) and the
finally block deletes the id from activeAnimations. -/
def writeCharStep (s : WriterState) (tidx : Nat) : WriterState :=
  match s.tasks.get? tidx with
  | none => s
  | some t =>
    if t.resolved then s
    else if t.id ∈ s.activeAnimations then
      if t.index < t.text.length then
        { s with element := s.element ++ [t.text.getD t.index ' '],
                 tasks := s.tasks.set tidx { t with index := t.index + 1 } }
      else
        { s with tasks := s.tasks.set tidx
                   { t with resolved := true, completeFired := t.completeFired + 1 },
                 activeAnimations := s.activeAnimations.erase t.id }
    else
      { s with tasks := s.tasks.set tidx
                 { t with resolved := true, completeFired := t.completeFired + 1 },
               activeAnimations := s.activeAnimations.erase t.id }

/-- Dispatch of one scheduler event. -/
def writerStep (s : WriterState) : WEvent → WriterState
  | WEvent.start id text => writeTextStart s id text
  | WEvent.step tidx => writeCharStep s tidx
  | WEvent.stopAll => { s with activeAnimations := [] }

/-- Fold of a scheduler trace from the initial renderer state. -/
def writerRun (evts : List WEvent) : WriterState :=
  evts.foldl writerStep ⟨[], [], []⟩

end StreamingWriter

/-- Record splitter of handleStreamingResponse: buffer.split with the
two-character separator of a blank line, events = all parts but the last,
buffer = the last part (part_005 lines 750-751, app-chat.js lines 788-789).
The first component is the completed records in order, the second the
trailing buffer. -/
def sseSplit : List Char → List (List Char) × List Char
  | [] => ([], [])
  | [c] => ([], [c])
  | c1 :: c2 :: rest =>
    if c1 = '\n' ∧ c2 = '\n' then
      let p := sseSplit rest
      ([] :: p.1, p.2)
    else
      let p := sseSplit (c2 :: rest)
      match p.1 with
      | [] => ([], c1 :: p.2)
      | r :: rs => ((c1 :: r) :: rs, p.2)

/-- Read loop of handleStreamingResponse (part_005 lines 745-751,
app-chat.js lines 783-789): each physical chunk is appended to the carried
buffer, the completed records are split off in order, and the unterminated
tail is carried to the next read; at end of stream the tail is dropped
unparsed. -/
def feedChunks : List Char → List (List Char) → List (List Char)
  | _, [] => []
  | buf, chunk :: rest =>
    let p := sseSplit (buf ++ chunk)
    p.1 ++ feedChunks p.2 rest

/-- Line splitter used by parseSSEEvent: eventString.split of a single
newline. -/
def splitNL : List Char → List (List Char)
  | [] => [[]]
  | c :: rest =>
    if c = '\n' then [] :: splitNL rest
    else
      match splitNL rest with
      | [] => [[c]]
      | l :: ls => (c :: l) :: ls

/-- Whitespace for the trim of JavaScript strings (the ASCII white space
characters). -/
def jsWhitespace (c : Char) : Bool :=
  c = ' ' ∨ c = '\t' ∨ c = '\n' ∨ c = '\x0d' ∨ c = '\x0b' ∨ c = '\x0c'

/-- Trim of a JavaScript string: whitespace removed from both ends. -/
def jsTrim (s : List Char) : List Char :=
  ((s.dropWhile jsWhitespace).reverse.dropWhile jsWhitespace).reverse

/-- Test whether the second list starts with the first (String.startsWith of
the sources). -/
def listStartsWith : List Char → List Char → Bool
  | [], _ => true
  | _ :: _, [] => false
  | p :: ps, c :: cs => p = c && listStartsWith ps cs

/-- Frame event produced by parseSSEEvent: the event name and the
concatenated trimmed data payload. -/
structure SSEvent where
  name : List Char
  data : List Char
deriving DecidableEq, Repr

/-- Per-line accumulator of parseSSEEvent (part_005 lines 798-812,
app-chat.js lines 844-858): a line starting with the event marker replaces
the name with the trimmed remainder after the six-character marker; a line
starting with the data marker appends the trimmed remainder after the
five-character marker; other lines are ignored. -/
def parseSSEStep (acc : List Char × List Char) (line : List Char) :
    List Char × List Char :=
  if listStartsWith "event:".data line then (jsTrim (line.drop 6), acc.2)
  else if listStartsWith "data:".data line then (acc.1, acc.2 ++ jsTrim (line.drop 5))
  else acc

/-- MessageSender.parseSSEEvent (part_005 lines 798-812, app-chat.js lines
844-858): folds the lines of a record, the default name being message, and
returns an event exactly when the accumulated data string is truthy. -/
def parseSSEEvent (record : List Char) : Option SSEvent :=
  let r := (splitNL record).foldl parseSSEStep ("message".data, [])
  if r.2 = [] then none else some ⟨r.1, r.2⟩

/-- Events a chunked delivery yields once buffered into records and parsed,
null parses skipped (the continue at part_005 line 755, app-chat.js line
793). -/
def decodeStream (chunks : List (List Char)) : List SSEvent :=
  (feedChunks [] chunks).filterMap parseSSEEvent

/-- Result of the external JSON.parse as far as the stream handler reads it:
none models a parse throw; otherwise the text field (chunk payloads) and the
thread_id field (meta payloads), each none when absent. -/
structure JsonVal where
  text : Option (List Char)
  thread_id : Option (List Char)
deriving DecidableEq, Repr

/-- Effects the switch of handleStreamingResponse can perform on one event:
append escaped text to the surface, store the final structured payload, set
the current thread id, or throw terminating the stream for this message. -/
inductive DecodeAct
  | append (t : List Char)
  | setFinal (j : JsonVal)
  | setThread (tid : List Char)
  | terminate (msg : List Char)
deriving DecidableEq, Repr

/-- Truthiness of an optional JavaScript string field. -/
def truthyField : Option (List Char) → Bool
  | none => false
  | some s => s ≠ []

/-- Switch body of MessageSender.handleStreamingResponse (app-chat.js lines
795-829) for one parsed event, parameterised by the JSON.parse oracle jp: a
chunk whose data parses appends its truthy text field, a chunk whose data
fails to parse appends the raw data (the catch fallback at lines 802-804); a
final_json that parses is stored, one that fails to parse is only logged; a
meta that parses sets a truthy thread_id; an error event throws; any other
event name does nothing. -/
def processEvent (jp : List Char → Option JsonVal) (e : SSEvent) : List DecodeAct :=
  if e.name = "chunk".data then
    match jp e.data with
    | some j =>
      match j.text with
      | some t => if t ≠ [] then [DecodeAct.append t] else []
      | none => []
    | none => [DecodeAct.append e.data]
  else if e.name = "final_json".data then
    match jp e.data with
    | some j => [DecodeAct.setFinal j]
    | none => []
  else if e.name = "meta".data then
    match jp e.data with
    | some j =>
      match j.thread_id with
      | some tid => if tid ≠ [] then [DecodeAct.setThread tid] else []
      | none => []
    | none => []
  else if e.name = "error".data then [DecodeAct.terminate e.data]
  else []

/-- Detect the throwing action. -/
def isTerminate : DecodeAct → Bool
  | DecodeAct.terminate _ => true
  | _ => false

/-- Event loop of handleStreamingResponse over the parsed events: each
event's actions are emitted in order, and a throw aborts the loop so later
events of the stream are never processed. -/
def runDecoder (jp : List Char → Option JsonVal) : List SSEvent → List DecodeAct
  | [] => []
  | e :: es =>
    let as := processEvent jp e
    if as.any isTerminate then as else as ++ runDecoder jp es

/-!  Facts about the record splitter, leading to the re-chunking invariance
of the decoder. -/

/-- Equation of sseSplit at a leading blank-line separator. -/
theorem sseSplit_sep (rest : List Char) :
    sseSplit ('\n' :: '\n' :: rest) = ([] :: (sseSplit rest).1, (sseSplit rest).2) := by
  simp [sseSplit]

/-- Equation of sseSplit at a non-separator head when the tail closes no
record. -/
theorem sseSplit_nosep_nil {c1 c2 : Char} {rest : List Char}
    (h : ¬(c1 = '\n' ∧ c2 = '\n')) (hp : (sseSplit (c2 :: rest)).1 = []) :
    sseSplit (c1 :: c2 :: rest) = ([], c1 :: (sseSplit (c2 :: rest)).2) := by
  simp only [sseSplit, if_neg h]
  rw [hp]

/-- Equation of sseSplit at a non-separator head when the tail closes at
least one record. -/
theorem sseSplit_nosep_cons {c1 c2 : Char} {rest r : List Char} {rs : List (List Char)}
    (h : ¬(c1 = '\n' ∧ c2 = '\n')) (hp : (sseSplit (c2 :: rest)).1 = r :: rs) :
    sseSplit (c1 :: c2 :: rest) = ((c1 :: r) :: rs, (sseSplit (c2 :: rest)).2) := by
  simp only [sseSplit, if_neg h]
  rw [hp]

/-- Text that closes no record is carried to the buffer verbatim. -/
theorem sseSplit_nil_buf : ∀ z, (sseSplit z).1 = [] → (sseSplit z).2 = z := by
  intro z
  induction z using sseSplit.induct with
  | case1 => intro; rfl
  | case2 c => intro; rfl
  | case3 c1 c2 rest h ih =>
    obtain ⟨h1, h2⟩ := h; subst h1 h2
    rw [sseSplit_sep]
    intro hh
    simp at hh
  | case4 c1 c2 rest h p hp ih =>
    replace hp : (sseSplit (c2 :: rest)).1 = [] := hp
    rw [sseSplit_nosep_nil h hp]
    intro
    simp [ih hp]
  | case5 c1 c2 rest h p r rs hp ih =>
    replace hp : (sseSplit (c2 :: rest)).1 = r :: rs := hp
    rw [sseSplit_nosep_cons h hp]
    intro hh
    simp at hh

/-- Buffers returned by the splitter contain no separator: splitting them
again closes no record. -/
theorem sseSplit_buf_pure : ∀ z, sseSplit ((sseSplit z).2) = ([], (sseSplit z).2) := by
  intro z
  induction z using sseSplit.induct with
  | case1 => rfl
  | case2 c => rfl
  | case3 c1 c2 rest h ih =>
    obtain ⟨h1, h2⟩ := h; subst h1 h2
    rw [sseSplit_sep]
    exact ih
  | case4 c1 c2 rest h p hp ih =>
    replace hp : (sseSplit (c2 :: rest)).1 = [] := hp
    have hbuf : (sseSplit (c2 :: rest)).2 = c2 :: rest := sseSplit_nil_buf _ hp
    rw [sseSplit_nosep_nil h hp]
    simp only []
    rw [hbuf, sseSplit_nosep_nil h hp, hbuf]
  | case5 c1 c2 rest h p r rs hp ih =>
    replace hp : (sseSplit (c2 :: rest)).1 = r :: rs := hp
    rw [sseSplit_nosep_cons h hp]
    exact ih

/-- Compositionality of the splitter: splitting s followed by t equals
splitting s, then splitting its buffer extended by t. -/
theorem sseSplit_append (t : List Char) :
    ∀ s, sseSplit (s ++ t) =
      ((sseSplit s).1 ++ (sseSplit ((sseSplit s).2 ++ t)).1,
       (sseSplit ((sseSplit s).2 ++ t)).2) := by
  intro s
  induction s using sseSplit.induct with
  | case1 => simp [sseSplit]
  | case2 c => simp [sseSplit]
  | case3 c1 c2 rest h ih =>
    obtain ⟨h1, h2⟩ := h; subst h1 h2
    have lhs : ('\n' :: '\n' :: rest) ++ t = '\n' :: '\n' :: (rest ++ t) := rfl
    rw [lhs, sseSplit_sep, sseSplit_sep, ih]
    simp
  | case4 c1 c2 rest h p hp ih =>
    replace hp : (sseSplit (c2 :: rest)).1 = [] := hp
    have hbuf : (sseSplit (c2 :: rest)).2 = c2 :: rest := sseSplit_nil_buf _ hp
    rw [sseSplit_nosep_nil h hp, hbuf]
    have lhs : (c1 :: c2 :: rest) ++ t = c1 :: c2 :: (rest ++ t) := rfl
    rw [lhs]
    simp only [List.nil_append]
  | case5 c1 c2 rest h p r rs hp ih =>
    replace hp : (sseSplit (c2 :: rest)).1 = r :: rs := hp
    have hp2 : (sseSplit (c2 :: (rest ++ t))).1
        = r :: (rs ++ (sseSplit ((sseSplit (c2 :: rest)).2 ++ t)).1) := by
      rw [← List.cons_append, ih, hp]
      simp
    have h2 : (sseSplit (c2 :: (rest ++ t))).2
        = (sseSplit ((sseSplit (c2 :: rest)).2 ++ t)).2 := by
      rw [← List.cons_append, ih]
    have lhs : (c1 :: c2 :: rest) ++ t = c1 :: c2 :: (rest ++ t) := rfl
    rw [sseSplit_nosep_cons h hp, lhs, sseSplit_nosep_cons h hp2, h2]
    simp

/-- Chunked feeding from a separator-free buffer emits exactly the records
of the concatenated text. -/
theorem feedChunks_eq : ∀ (chunks : List (List Char)) (buf : List Char),
    (sseSplit buf).1 = [] → (sseSplit buf).2 = buf →
    feedChunks buf chunks = (sseSplit (buf ++ chunks.flatten)).1 := by
  intro chunks
  induction chunks with
  | nil =>
    intro buf h1 _
    simp [feedChunks, h1]
  | cons c cs ih =>
    intro buf h1 h2
    have hp := sseSplit_buf_pure (buf ++ c)
    have key := ih (sseSplit (buf ++ c)).2 (by rw [hp]) (by rw [hp])
    simp only [feedChunks, key]
    have flat : (c :: cs).flatten = c ++ cs.flatten := by simp
    rw [flat, show buf ++ (c ++ cs.flatten) = (buf ++ c) ++ cs.flatten by simp]
    rw [sseSplit_append cs.flatten (buf ++ c)]

/-- Payload a single line contributes to the accumulated data of
parseSSEEvent. -/
def dataPayload (l : List Char) : List Char :=
  if listStartsWith "event:".data l = false ∧ listStartsWith "data:".data l = true then
    jsTrim (l.drop 5)
  else []

/-- Data component of the parseSSEEvent fold: the concatenation of the
trimmed payloads of the data lines. -/
theorem foldl_parseSSEStep_snd : ∀ (lines : List (List Char)) (n d : List Char),
    (lines.foldl parseSSEStep (n, d)).2 = d ++ (lines.map dataPayload).flatten := by
  intro lines
  induction lines with
  | nil => intro n d; simp
  | cons l ls ih =>
    intro n d
    by_cases hev : listStartsWith "event:".data l = true
    · have hpay : dataPayload l = [] := by
        simp [dataPayload, hev]
      simp only [List.foldl_cons, parseSSEStep, hev, if_true, List.map_cons,
        List.flatten_cons, hpay, List.nil_append]
      exact ih _ d
    · replace hev : listStartsWith "event:".data l = false := by
        simpa using hev
      by_cases hda : listStartsWith "data:".data l = true
      · have hpay : dataPayload l = jsTrim (l.drop 5) := by
          simp [dataPayload, hev, hda]
        simp only [List.foldl_cons, parseSSEStep, hev, hda, Bool.false_eq_true,
          if_false, if_true, List.map_cons, List.flatten_cons, hpay]
        rw [ih _ _]
        simp
      · replace hda : listStartsWith "data:".data l = false := by
          simpa using hda
        have hpay : dataPayload l = [] := by
          simp [dataPayload, hda]
        simp only [List.foldl_cons, parseSSEStep, hev, hda, Bool.false_eq_true,
          if_false, List.map_cons, List.flatten_cons, hpay, List.nil_append]
        exact ih _ d

/-- Lines recognised as data lines are not recognised as event lines: the
two markers differ at their first character. -/
theorem data_not_event {l : List Char} (h : listStartsWith "data:".data l = true) :
    listStartsWith "event:".data l = false := by
  match l with
  | [] => simp [listStartsWith] at h
  | c :: cs =>
    have hc : c = 'd' := by
      by_contra hne
      rw [show ("data:".data) = 'd' :: "ata:".data from rfl] at h
      simp [listStartsWith] at h
      exact hne h.1.symm
    subst hc
    rw [show ("event:".data) = 'e' :: "vent:".data from rfl]
    simp [listStartsWith]

/-- C9: the Stream Frame Decoder is invariant under re-chunking: for every
way of splitting the framed text into physical read chunks, the buffered
decoder emits exactly the StreamEvents, in order, that it emits when the
whole text arrives as one chunk; an event is emitted only from a fully
assembled blank-line-terminated record (the trailing buffer is never
parsed). -/
theorem decodeStream_rechunking_invariant :
    ∀ chunks : List (List Char), decodeStream chunks = decodeStream [chunks.flatten] := by
  intro chunks
  unfold decodeStream
  have h1 : feedChunks [] chunks = (sseSplit ([] ++ chunks.flatten)).1 :=
    feedChunks_eq chunks [] rfl rfl
  have h2 : feedChunks [] [chunks.flatten] = (sseSplit ([] ++ [chunks.flatten].flatten)).1 :=
    feedChunks_eq [chunks.flatten] [] rfl rfl
  rw [h1, h2]
  simp

/-- C10: parseSSEEvent returns an event exactly when the record holds at
least one data line with non-empty trimmed payload; in particular a record
holding only an event name line yields no StreamEvent at all. -/
theorem parseSSEEvent_some_iff_data_payload :
    ∀ record, (parseSSEEvent record).isSome = true ↔
      ∃ l ∈ splitNL record, listStartsWith "data:".data l = true ∧ jsTrim (l.drop 5) ≠ [] := by
  intro record
  unfold parseSSEEvent
  simp only [foldl_parseSSEStep_snd, List.nil_append]
  constructor
  · intro h
    by_cases hnil : ((splitNL record).map dataPayload).flatten = []
    · simp [hnil] at h
    · rw [List.flatten_eq_nil_iff] at hnil
      push_neg at hnil
      obtain ⟨x, hx, hxne⟩ := hnil
      rw [List.mem_map] at hx
      obtain ⟨l, hl, hfl⟩ := hx
      refine ⟨l, hl, ?_⟩
      by_cases hda : listStartsWith "data:".data l = true
      · refine ⟨hda, ?_⟩
        intro htr
        apply hxne
        rw [← hfl]
        simp [dataPayload, data_not_event hda, hda, htr]
      · exfalso
        apply hxne
        rw [← hfl]
        simp only [dataPayload]
        rw [if_neg]
        intro hcon
        exact hda hcon.2
  · rintro ⟨l, hl, hda, htr⟩
    have hne : ((splitNL record).map dataPayload).flatten ≠ [] := by
      rw [Ne, List.flatten_eq_nil_iff]
      push_neg
      refine ⟨dataPayload l, List.mem_map_of_mem _ hl, ?_⟩
      simp [dataPayload, data_not_event hda, hda]
      exact htr
    simp [hne]

namespace Utils

/-- Delay law of the retryFunction loop: the j-th delay awaited is
baseDelay * 2 ^ (first attempt index + j). -/
theorem retryGo_delays {E A : Type} (op : Nat → Except E A) (base : Int) :
    ∀ (rem a j : Nat) (d : Int), ((retryGo op base a rem).2.get? j = some d) →
      d = base * 2 ^ (a + j) := by
  intro rem
  induction rem with
  | zero => intro a j d h; simp [retryGo] at h
  | succ rem ih =>
    intro a j d h
    rcases hop : op a with e | v
    · simp only [retryGo, hop] at h
      by_cases hr : rem = 0
      · rw [if_pos hr] at h
        simp at h
      · rw [if_neg hr] at h
        simp only at h
        match j with
        | 0 =>
          simp only [List.get?_cons_zero, Option.some.injEq] at h
          rw [← h, Nat.add_zero]
        | j + 1 =>
          simp only [List.get?_cons_succ] at h
          have h2 := ih (a + 1) j d h
          have he : a + 1 + j = a + (j + 1) := by omega
          rw [he] at h2
          exact h2
    · simp only [retryGo, hop] at h
      simp at h

/-- Failure propagation of the retryFunction loop: when every attempt
fails, the error of the last attempt is rethrown unchanged. -/
theorem retryGo_final {E A : Type} (op : Nat → Except E A) (base : Int) (e : Nat → E) :
    ∀ (rem a : Nat), 1 ≤ rem → (∀ i, a ≤ i → i < a + rem → op i = Except.error (e i)) →
      (retryGo op base a rem).1 = some (Except.error (e (a + rem - 1))) := by
  intro rem
  induction rem with
  | zero => intro a h; omega
  | succ rem ih =>
    intro a _ hop
    have ha : op a = Except.error (e a) := hop a (le_refl a) (by omega)
    by_cases hr : rem = 0
    · subst hr
      simp [retryGo, ha]
    · have h2 := ih (a + 1) (by omega) (fun i h1 h2 => hop i (by omega) (by omega))
      simp only [retryGo, ha, if_neg hr]
      simp only at h2 ⊢
      rw [h2]
      have he : a + 1 + rem - 1 = a + (rem + 1) - 1 := by omega
      rw [he]

/-- Delay law of the retryRequest loop: the j-th delay awaited is
delay * (first attempt index + j). -/
theorem retryRequestGo_delays {E A : Type} (op : Nat → Except E A) (base : Int) :
    ∀ (rem a j : Nat) (d : Int), ((retryRequestGo op base a rem).2.get? j = some d) →
      d = base * ((a : Int) + j) := by
  intro rem
  induction rem with
  | zero => intro a j d h; simp [retryRequestGo] at h
  | succ rem ih =>
    intro a j d h
    rcases hop : op a with e | v
    · simp only [retryRequestGo, hop] at h
      by_cases hr : rem = 0
      · rw [if_pos hr] at h
        simp at h
      · rw [if_neg hr] at h
        simp only at h
        match j with
        | 0 =>
          simp only [List.get?_cons_zero, Option.some.injEq] at h
          rw [← h]
          simp
        | j + 1 =>
          simp only [List.get?_cons_succ] at h
          have h2 := ih (a + 1) j d h
          rw [h2]
          push_cast
          ring
    · simp only [retryRequestGo, hop] at h
      simp at h

/-- Failure propagation of the retryRequest loop. -/
theorem retryRequestGo_final {E A : Type} (op : Nat → Except E A) (base : Int) (e : Nat → E) :
    ∀ (rem a : Nat), 1 ≤ rem → (∀ i, a ≤ i → i < a + rem → op i = Except.error (e i)) →
      (retryRequestGo op base a rem).1 = some (Except.error (e (a + rem - 1))) := by
  intro rem
  induction rem with
  | zero => intro a h; omega
  | succ rem ih =>
    intro a _ hop
    have ha : op a = Except.error (e a) := hop a (le_refl a) (by omega)
    by_cases hr : rem = 0
    · subst hr
      simp [retryRequestGo, ha]
    · have h2 := ih (a + 1) (by omega) (fun i h1 h2 => hop i (by omega) (by omega))
      simp only [retryRequestGo, ha, if_neg hr]
      simp only at h2 ⊢
      rw [h2]
      have he : a + 1 + rem - 1 = a + (rem + 1) - 1 := by omega
      rw [he]

end Utils

/-- C7 counterexample: with four attempts, the delay retryRequest waits
after the failure of 0-indexed attempt 2 is 3000 = delay * 3, not the
exponential 1000 * 2 ^ 2 = 4000 the claim asserts for that attempt. -/
theorem retryRequest_linear_delay :
    (Utils.retryRequest (fun _ => (Except.error 0 : Except Nat Nat)) 4 1000).2.get? 2
        = some 3000
      ∧ (3000 : Int) ≠ 1000 * 2 ^ 2 := by
  constructor
  · rfl
  · decide

/-- C7 (amended): Utils.retryFunction is exponential - the delay before
re-invoking after the failure of 0-indexed attempt n - 1 is
baseDelay * 2 ^ (n - 1) - and propagates the final attempt's error
unchanged; the duplicate Utils.retryRequest instead waits delay * n after
the failure of the n-th 1-indexed attempt (linear backoff), and also
propagates the final error unchanged. -/
theorem retry_delay_laws :
    (∀ (op : Nat → Except Nat Nat) (maxR : Nat) (base : Int) (j : Nat) (d : Int),
        (Utils.retryFunction op maxR base).2.get? j = some d → d = base * 2 ^ j)
    ∧ (∀ (op : Nat → Except Nat Nat) (maxR : Nat) (base : Int) (e : Nat → Nat),
        1 ≤ maxR → (∀ i, i < maxR → op i = Except.error (e i)) →
        (Utils.retryFunction op maxR base).1 = some (Except.error (e (maxR - 1))))
    ∧ (∀ (op : Nat → Except Nat Nat) (maxR : Nat) (base : Int) (j : Nat) (d : Int),
        (Utils.retryRequest op maxR base).2.get? j = some d → d = base * ((j : Int) + 1))
    ∧ (∀ (op : Nat → Except Nat Nat) (maxR : Nat) (base : Int) (e : Nat → Nat),
        1 ≤ maxR → (∀ i, 1 ≤ i → i ≤ maxR → op i = Except.error (e i)) →
        (Utils.retryRequest op maxR base).1 = some (Except.error (e maxR))) := by
  refine ⟨?_, ?_, ?_, ?_⟩
  · intro op maxR base j d h
    have := Utils.retryGo_delays op base maxR 0 j d h
    simpa using this
  · intro op maxR base e h1 h2
    have := Utils.retryGo_final op base e maxR 0 h1
      (fun i hi1 hi2 => h2 i (by omega))
    simpa using this
  · intro op maxR base j d h
    have := Utils.retryRequestGo_delays op base maxR 1 j d h
    rw [this]
    ring
  · intro op maxR base e h1 h2
    have h3 := Utils.retryRequestGo_final op base e maxR 1 h1
      (fun i hi1 hi2 => h2 i (by omega) (by omega))
    have he : 1 + maxR - 1 = maxR := by omega
    rw [he] at h3
    exact h3

/-- Concrete fixtures for the backup counterexamples: a fully populated
authenticated user and an initial app state. -/
def sampleUser : ServerUser := ⟨true, "1".data, "n".data, "e".data, []⟩

/-- Initial app state used by the concrete backup scenarios. -/
def initialAppState : AppStateM := ⟨loggedOutUser, [], (0, 0), 0⟩

/-- C3 counterexample: a SessionBackup captured 61 minutes before the
restore (now - capturedAt = 3660000 ms > 3600000 ms) is not discarded by
StorageManager.restoreSession - the restore succeeds and overwrites the
current serverUser, because this restore routine checks a 24-hour window,
not the 1-hour window the claim states. -/
theorem restoreSession_61min_succeeds :
    (StorageManager.restoreSession
        (some ⟨some sampleUser, 1, "t".data⟩) 3660001 initialAppState).1 = true
      ∧ (StorageManager.restoreSession
          (some ⟨some sampleUser, 1, "t".data⟩) 3660001 initialAppState).2.serverUser
        = sampleUser
      ∧ ((3660001 : Int) - 1 > 3600000) := by
  refine ⟨rfl, rfl, by decide⟩

/-- C3 (amended): StorageManager.restoreState follows the 1-hour rule - with
a backup present it applies the backup and returns true exactly when
now - capturedAt < 3600000 ms, and otherwise returns false leaving the state
unchanged (a backup captured 59 minutes ago restores, one captured 61
minutes ago does not); the duplicate StorageManager.restoreSession instead
accepts any well-formed backup younger than 24 hours, so the 1-hour
staleness bound holds only for restoreState. -/
theorem restore_thresholds :
    (∀ (b : StorageManager.StateBackup) (now : Int) (st : AppStateM),
        (StorageManager.restoreState (some b) now st).1 = true
          ↔ now - b.timestamp < 3600000)
    ∧ (∀ (b : StorageManager.StateBackup) (now : Int) (st : AppStateM),
        3600000 ≤ now - b.timestamp →
        StorageManager.restoreState (some b) now st = (false, st))
    ∧ (∀ (b : StorageManager.SessionBackup) (u : ServerUser) (now : Int) (st : AppStateM),
        b.user = some u → b.timestamp ≠ 0 →
        ((StorageManager.restoreSession (some b) now st).1 = true
          ↔ now - b.timestamp < 86400000))
    ∧ (StorageManager.restoreState
        (some ⟨1, some sampleUser, [], none⟩) 3540001 initialAppState).1 = true
    ∧ StorageManager.restoreState
        (some ⟨1, some sampleUser, [], none⟩) 3660001 initialAppState
      = (false, initialAppState) := by
  refine ⟨?_, ?_, ?_, rfl, rfl⟩
  · intro b now st
    unfold StorageManager.restoreState
    by_cases h : now - b.timestamp < 3600000
    · simp [h]
    · simp [h]
  · intro b now st h
    have hn : ¬(now - b.timestamp < 3600000) := by omega
    simp [StorageManager.restoreState, hn]
  · intro b u now st hu ht
    simp only [StorageManager.restoreSession, hu]
    by_cases h : now - b.timestamp < 24 * 60 * 60 * 1000
    · rw [if_pos ⟨ht, h⟩]
      simpa using h
    · rw [if_neg (by tauto)]
      constructor
      · intro hc
        simp at hc
      · intro hc
        omega

/-- Invariant of the unforced in-flight model: at most one request
outstanding, and the guard flag set exactly while one is. -/
def flightInv (s : AuthManager.AuthFlight) : Prop :=
  s.inFlight ≤ 1 ∧ (s.authCheckInProgress = true ↔ s.inFlight = 1)

/-- Preservation of the in-flight invariant by unforced events. -/
theorem authStep_flightInv (s : AuthManager.AuthFlight) (e : AuthManager.AuthEvt)
    (hu : AuthManager.unforced e = true) (h : flightInv s) :
    flightInv (AuthManager.authStep s e) := by
  obtain ⟨h1, h2⟩ := h
  cases e with
  | start force online =>
    have hf : force = false := by
      simpa [AuthManager.unforced] using hu
    subst hf
    by_cases hp : s.authCheckInProgress = true
    · have hstep : AuthManager.authStep s (AuthManager.AuthEvt.start false online) = s := by
        simp [AuthManager.authStep, hp]
      rw [hstep]
      exact ⟨h1, h2⟩
    · have hp0 : s.authCheckInProgress = false := by
        simpa using hp
      have hz : s.inFlight = 0 := by
        rcases Nat.lt_or_ge s.inFlight 1 with hh | hh
        · omega
        · exfalso
          have : s.inFlight = 1 := by omega
          rw [h2.2 this] at hp0
          simp at hp0
      by_cases ho : online = true
      · simp [AuthManager.authStep, hp0, ho, flightInv, hz]
      · have ho0 : online = false := by simpa using ho
        have hstep : AuthManager.authStep s (AuthManager.AuthEvt.start false online) = s := by
          simp [AuthManager.authStep, hp0, ho0]
        rw [hstep]
        exact ⟨h1, h2⟩
  | finish =>
    by_cases hz : 0 < s.inFlight
    · have : s.inFlight = 1 := by omega
      simp [AuthManager.authStep, hz, flightInv, this]
    · simp [AuthManager.authStep, hz, flightInv, h1, h2]

/-- Fold preservation of the in-flight invariant over an unforced trace. -/
theorem authRun_flightInv : ∀ (evts : List AuthManager.AuthEvt)
    (s : AuthManager.AuthFlight), evts.all AuthManager.unforced = true →
    flightInv s → flightInv (AuthManager.authRun s evts) := by
  intro evts
  induction evts with
  | nil => intro s _ h; exact h
  | cons e es ih =>
    intro s hall h
    rw [List.all_cons, Bool.and_eq_true] at hall
    exact ih _ hall.2 (authStep_flightInv s e hall.1 h)

/-- C1 counterexample: from the idle state, a scheduled round starts a
request, and before it settles a forced round (force = true, as after
reconnect or foreground transition) passes the guard and starts a second
one - two verification requests are then concurrently in flight, refuting
the claim for interleavings that include forced rounds. -/
theorem performAuthCheck_forced_double_flight :
    (AuthManager.authRun AuthManager.initFlight
        [AuthManager.AuthEvt.start false true,
         AuthManager.AuthEvt.start true true]).inFlight = 2
      ∧ ¬((AuthManager.authRun AuthManager.initFlight
            [AuthManager.AuthEvt.start false true,
             AuthManager.AuthEvt.start true true]).inFlight ≤ 1) := by
  constructor
  · rfl
  · decide

/-- C1 (amended): performAuthCheck returns at once, issuing nothing, when
the in-flight flag is set and the call is not forced, and along every
interleaving that contains no forced round at most one verification request
is in flight; a forced call, by design, bypasses the guard even while a
request is outstanding, so the single-flight bound holds only for unforced
interleavings. -/
theorem performAuthCheck_single_flight_unforced :
    (∀ (s : AuthManager.AuthFlight) (online : Bool), s.authCheckInProgress = true →
        AuthManager.authStep s (AuthManager.AuthEvt.start false online) = s)
    ∧ (∀ evts : List AuthManager.AuthEvt, evts.all AuthManager.unforced = true →
        (AuthManager.authRun AuthManager.initFlight evts).inFlight ≤ 1) := by
  constructor
  · intro s online h
    simp [AuthManager.authStep, h]
  · intro evts hall
    have h0 : flightInv AuthManager.initFlight := by
      constructor
      · decide
      · constructor
        · intro h; simp [AuthManager.initFlight] at h
        · intro h; simp [AuthManager.initFlight] at h
    exact (authRun_flightInv evts AuthManager.initFlight hall h0).1

/-- C4 counterexample: folding the verification result (is_authenticated:
true, user_id: 7, name and email empty) into the logged-out state stores a
serverUser with is_authenticated = true and empty identity fields, and
isAuthenticated then reports true; moreover checkAuthentication classifies
a user with empty id (but truthy name and email) as authenticated, so an
empty identityId does not demote either. -/
theorem isAuthenticated_true_with_empty_name :
    (AuthManager.performCheckStep ⟨loggedOutUser, 0, []⟩
        (AuthManager.AuthOutcome.ok ⟨true, "7".data, [], [], []⟩)).serverUser.name = []
      ∧ AuthManager.isAuthenticated
          (AuthManager.performCheckStep ⟨loggedOutUser, 0, []⟩
            (AuthManager.AuthOutcome.ok ⟨true, "7".data, [], [], []⟩)).serverUser = true
      ∧ (AuthManager.checkAuthentication ⟨true, [], "n".data, "e".data, []⟩
          false []).1 = AuthManager.SessionClass.authenticated := by
  refine ⟨rfl, rfl, rfl⟩

/-- C4 (amended): checkAuthentication routes to the authenticated handler
exactly when the flag is set and name and email are truthy - an empty name
or email demotes the classification (and an empty identityId does not) -
while isAuthenticated reads only the is_authenticated flag, so after a
demoting classification the predicate can still report true with an empty
identity field, since no branch of checkAuthentication rewrites
serverUser. -/
theorem checkAuthentication_authenticated_iff :
    (∀ (u : ServerUser) (sv : Bool) (tid : List Char),
        (AuthManager.checkAuthentication u sv tid).1 = AuthManager.SessionClass.authenticated
          ↔ (u.is_authenticated = true ∧ jsTruthy u.name = true ∧ jsTruthy u.email = true))
    ∧ (∀ u : ServerUser, AuthManager.isAuthenticated u = u.is_authenticated) := by
  constructor
  · intro u sv tid
    unfold AuthManager.checkAuthentication
    by_cases h : u.is_authenticated = true ∧ jsTruthy u.name = true ∧ jsTruthy u.email = true
    · rw [if_pos (by exact_mod_cast h)]
      simpa using h
    · rw [if_neg (by exact_mod_cast h)]
      by_cases h2 : sv = true ∧ jsTruthy tid = true ∧ tid ≠ "null".data
      · rw [if_pos (by exact_mod_cast h2)]
        simp [h]
      · rw [if_neg (by exact_mod_cast h2)]
        simp [h]
  · intro u
    rfl

/-- C8 counterexample: the claim fails on both performAuthCheck
duplicates.  In the first (lines 519-663), a fully successful verification
that flips the authentication status returns on the state-change path
before the reset at line 645, leaving the failure counter at 1.  In the
second (lines 1693-1831), even a non-flipping success leaves the counter at
1 (this duplicate has no reset statement at all), a single online
non-fetch thrown failure surfaces the authCheckFailed notice at once - one
notice for the very first failing attempt, not one after three - and a
timeout failure surfaces the connection-timeout notice. -/
theorem authFailures_duplicate_divergence :
    (AuthManager.performCheckStep ⟨loggedOutUser, 1, []⟩
        (AuthManager.AuthOutcome.ok ⟨true, "1".data, "n".data, "e".data, []⟩)).authFailures
      = 1
      ∧ (AuthManager.performCheckStepV2 ⟨sampleUser, 1, []⟩
          (AuthManager.AuthOutcomeV2.ok ⟨true, "1".data, "n".data, "e".data, []⟩)).authFailures
        = 1
      ∧ (AuthManager.performCheckStepV2 ⟨loggedOutUser, 0, []⟩
          (AuthManager.AuthOutcomeV2.netFail true false)).notices
        = [AuthManager.Toast.authCheckFailed]
      ∧ (AuthManager.performCheckStepV2 ⟨loggedOutUser, 0, []⟩
          AuthManager.AuthOutcomeV2.timeout).notices
        = [AuthManager.Toast.connectionTimeout]
      ∧ (1 : Nat) ≠ 0 := by
  refine ⟨rfl, rfl, by simp [AuthManager.performCheckStepV2], rfl, by decide⟩

/-- C8 (amended): in both performAuthCheck duplicates every failing
outcome - non-ok HTTP response, timeout, or other thrown error -
increments the failure counter, but the remaining laws diverge.  First
duplicate (lines 519-663): a success resets the counter to zero only when
it does not flip the authentication status (a flipping success returns
early, leaving the counter); from a zero counter, two consecutive thrown
network failures surface no authCheckFailed notice and three surface
exactly one, at the third; neither a timeout nor a non-ok response outside
401/503 adds any notice, so the three-failure notice arises only from
thrown failures.  Second duplicate (lines 1693-1831): no success ever
resets the counter; every thrown non-timeout failure while online whose
message does not mention fetch surfaces authCheckFailed immediately, with
no three-failure gate; and a timeout surfaces the connection-timeout
notice. -/
theorem authFailures_counter_laws :
    (∀ (s : AuthManager.AuthCheckState) (status : Nat),
        (AuthManager.performCheckStep s (AuthManager.AuthOutcome.httpFail status)).authFailures
          = s.authFailures + 1)
    ∧ (∀ s : AuthManager.AuthCheckState,
        (AuthManager.performCheckStep s AuthManager.AuthOutcome.timeout).authFailures
          = s.authFailures + 1)
    ∧ (∀ s : AuthManager.AuthCheckState,
        (AuthManager.performCheckStep s AuthManager.AuthOutcome.netFail).authFailures
          = s.authFailures + 1)
    ∧ (∀ (s : AuthManager.AuthCheckState) (d : AuthManager.AuthData),
        s.serverUser.is_authenticated = d.is_authenticated →
        (AuthManager.performCheckStep s (AuthManager.AuthOutcome.ok d)).authFailures = 0)
    ∧ (∀ s : AuthManager.AuthCheckState, s.authFailures = 0 →
        (List.foldl AuthManager.performCheckStep s
            [AuthManager.AuthOutcome.netFail, AuthManager.AuthOutcome.netFail]).notices
          = s.notices)
    ∧ (∀ s : AuthManager.AuthCheckState, s.authFailures = 0 →
        (List.foldl AuthManager.performCheckStep s
            [AuthManager.AuthOutcome.netFail, AuthManager.AuthOutcome.netFail,
             AuthManager.AuthOutcome.netFail]).notices
          = s.notices ++ [AuthManager.Toast.authCheckFailed])
    ∧ (∀ s : AuthManager.AuthCheckState,
        (AuthManager.performCheckStep s AuthManager.AuthOutcome.timeout).notices
          = s.notices)
    ∧ (∀ (s : AuthManager.AuthCheckState) (status : Nat), status ≠ 401 → status ≠ 503 →
        (AuthManager.performCheckStep s (AuthManager.AuthOutcome.httpFail status)).notices
          = s.notices)
    ∧ (∀ (s : AuthManager.AuthCheckState) (status : Nat),
        (AuthManager.performCheckStepV2 s (AuthManager.AuthOutcomeV2.httpFail status)).authFailures
          = s.authFailures + 1)
    ∧ (∀ s : AuthManager.AuthCheckState,
        (AuthManager.performCheckStepV2 s AuthManager.AuthOutcomeV2.timeout).authFailures
          = s.authFailures + 1)
    ∧ (∀ (s : AuthManager.AuthCheckState) (online msgHasFetch : Bool),
        (AuthManager.performCheckStepV2 s
            (AuthManager.AuthOutcomeV2.netFail online msgHasFetch)).authFailures
          = s.authFailures + 1)
    ∧ (∀ (s : AuthManager.AuthCheckState) (d : AuthManager.AuthData),
        (AuthManager.performCheckStepV2 s (AuthManager.AuthOutcomeV2.ok d)).authFailures
          = s.authFailures)
    ∧ (∀ s : AuthManager.AuthCheckState,
        (AuthManager.performCheckStepV2 s AuthManager.AuthOutcomeV2.timeout).notices
          = s.notices ++ [AuthManager.Toast.connectionTimeout])
    ∧ (∀ s : AuthManager.AuthCheckState,
        (AuthManager.performCheckStepV2 s
            (AuthManager.AuthOutcomeV2.netFail true false)).notices
          = s.notices ++ [AuthManager.Toast.authCheckFailed])
    ∧ (∀ (s : AuthManager.AuthCheckState) (msgHasFetch : Bool),
        (AuthManager.performCheckStepV2 s
            (AuthManager.AuthOutcomeV2.netFail false msgHasFetch)).notices
          = s.notices) := by
  refine ⟨?_, ?_, ?_, ?_, ?_, ?_, ?_, ?_, ?_, ?_, ?_, ?_, ?_, ?_, ?_⟩
  · intro s status
    simp only [AuthManager.performCheckStep]
    split_ifs <;> rfl
  · intro s
    rfl
  · intro s
    rfl
  · intro s d h
    simp only [AuthManager.performCheckStep, h, ne_eq, not_true_eq_false, if_false]
  · intro s h
    simp [AuthManager.performCheckStep, h]
  · intro s h
    simp [AuthManager.performCheckStep, h]
  · intro s
    rfl
  · intro s status h1 h2
    simp [AuthManager.performCheckStep, h1, h2]
  · intro s status
    simp only [AuthManager.performCheckStepV2]
    split_ifs <;> rfl
  · intro s
    rfl
  · intro s online msgHasFetch
    rfl
  · intro s d
    simp only [AuthManager.performCheckStepV2]
    split_ifs <;> rfl
  · intro s
    rfl
  · intro s
    simp [AuthManager.performCheckStepV2]
  · intro s msgHasFetch
    simp [AuthManager.performCheckStepV2]

namespace StreamingWriter

/-- Per-task invariant: the onComplete callback has run exactly once when
the task's promise has resolved and never before. -/
def taskInv (t : WTask) : Prop :=
  t.completeFired = if t.resolved then 1 else 0

/-- Preservation of the task invariant by one scheduler event. -/
theorem writerStep_taskInv (s : WriterState) (e : WEvent)
    (h : ∀ t ∈ s.tasks, taskInv t) :
    ∀ t ∈ (writerStep s e).tasks, taskInv t := by
  cases e with
  | start id text =>
    intro t ht
    simp only [writerStep, writeTextStart] at ht
    rw [List.mem_append] at ht
    rcases ht with ht | ht
    · exact h t ht
    · simp at ht
      subst ht
      rfl
  | stopAll =>
    intro t ht
    exact h t ht
  | step tidx =>
    intro t ht
    rcases hget : s.tasks.get? tidx with _ | t0
    · simp only [writerStep, writeCharStep, hget] at ht
      exact h t ht
    · simp only [writerStep, writeCharStep, hget] at ht
      have ht0 : taskInv t0 := h t0 (List.get?_mem hget)
      by_cases hres : t0.resolved = true
      · rw [if_pos hres] at ht
        exact h t ht
      · have hres0 : t0.resolved = false := by simpa using hres
        have hfired : t0.completeFired = 0 := by
          simpa [taskInv, hres0] using ht0
        rw [if_neg (by simp [hres0])] at ht
        by_cases hmem : t0.id ∈ s.activeAnimations
        · rw [if_pos hmem] at ht
          by_cases hidx : t0.index < t0.text.length
          · rw [if_pos hidx] at ht
            simp only at ht
            rcases List.mem_or_eq_of_mem_set ht with hh | hh
            · exact h t hh
            · subst hh
              simpa [taskInv, hres0] using ht0
          · rw [if_neg hidx] at ht
            simp only at ht
            rcases List.mem_or_eq_of_mem_set ht with hh | hh
            · exact h t hh
            · subst hh
              simp [taskInv, hfired]
        · rw [if_neg hmem] at ht
          simp only at ht
          rcases List.mem_or_eq_of_mem_set ht with hh | hh
          · exact h t hh
          · subst hh
            simp [taskInv, hfired]

/-- Fold preservation of the task invariant over a scheduler trace. -/
theorem writerFold_taskInv : ∀ (evts : List WEvent) (s : WriterState),
    (∀ t ∈ s.tasks, taskInv t) → ∀ t ∈ (evts.foldl writerStep s).tasks, taskInv t := by
  intro evts
  induction evts with
  | nil => intro s h; exact h
  | cons e es ih =>
    intro s h
    exact ih _ (writerStep_taskInv s e h)

end StreamingWriter

/-- C2 counterexample: writeText for task 2 on the surface already animated
by task 1 leaves task 1's id in activeAnimations (no predecessor is
cancelled), and the subsequent interleaving appends task 1's character after
task 2 has started and written its own - the element reads xb, mixing the
superseding and the superseded task. -/
theorem writeText_predecessor_interleaves :
    (StreamingWriter.writerRun
        [StreamingWriter.WEvent.start 1 "ab".data,
         StreamingWriter.WEvent.step 0,
         StreamingWriter.WEvent.start 2 "xy".data]).activeAnimations = [2, 1]
      ∧ (StreamingWriter.writerRun
          [StreamingWriter.WEvent.start 1 "ab".data,
           StreamingWriter.WEvent.step 0,
           StreamingWriter.WEvent.start 2 "xy".data,
           StreamingWriter.WEvent.step 1,
           StreamingWriter.WEvent.step 0]).element = "xb".data := by
  refine ⟨rfl, rfl⟩

/-- C2 (amended): writeText does not cancel the task already animating its
target - it only adds the fresh id to activeAnimations, so a superseded
task keeps appending interleaved with its successor; the only cancellation
the renderer offers is the global caller-invoked stopAll, which clears the
whole set, and any task whose id has been removed from the set never
appends another character (its next step resolves without touching the
surface). -/
theorem writeText_no_cancel_stopAll_only :
    (∀ (s : StreamingWriter.WriterState) (id : Nat) (text : List Char),
        (StreamingWriter.writerStep s (StreamingWriter.WEvent.start id text)).activeAnimations
          = id :: s.activeAnimations)
    ∧ (∀ (s : StreamingWriter.WriterState) (tidx : Nat) (t : StreamingWriter.WTask),
        s.tasks.get? tidx = some t → t.resolved = false →
        t.id ∉ s.activeAnimations →
        (StreamingWriter.writerStep s (StreamingWriter.WEvent.step tidx)).element
          = s.element)
    ∧ (∀ s : StreamingWriter.WriterState,
        (StreamingWriter.writerStep s StreamingWriter.WEvent.stopAll).activeAnimations
          = []) := by
  refine ⟨?_, ?_, ?_⟩
  · intro s id text
    rfl
  · intro s tidx t hget hres hmem
    simp only [StreamingWriter.writerStep, StreamingWriter.writeCharStep, hget, hres,
      Bool.false_eq_true, if_false, if_neg hmem]
  · intro s
    rfl

/-- C5 counterexample: the task revealing ab is cancelled by stopAll after
one character (its id leaves activeAnimations with index 1, short of the
two characters), yet its next step resolves the promise and the writeText
continuation still invokes onComplete - completeFired ends at 1, not 0,
refuting that a cancelled task never invokes onComplete. -/
theorem onComplete_fires_after_cancel :
    (StreamingWriter.writerRun
        [StreamingWriter.WEvent.start 0 "ab".data,
         StreamingWriter.WEvent.step 0,
         StreamingWriter.WEvent.stopAll]).activeAnimations = []
      ∧ (StreamingWriter.writerRun
          [StreamingWriter.WEvent.start 0 "ab".data,
           StreamingWriter.WEvent.step 0,
           StreamingWriter.WEvent.stopAll,
           StreamingWriter.WEvent.step 0]).tasks
        = [⟨0, "ab".data, 1, true, 1⟩]
      ∧ 1 < ("ab".data).length := by
  refine ⟨rfl, rfl, by decide⟩

/-- C5 (amended): along every scheduler trace, every task's onComplete has
run exactly once when its promise has resolved and never before - so
onComplete fires at most once per reveal invocation - but resolution, and
with it onComplete, is also reached through the cancellation branch, so a
cancelled task still invokes onComplete. -/
theorem onComplete_at_most_once (evts : List StreamingWriter.WEvent)
    (t : StreamingWriter.WTask)
    (ht : t ∈ (StreamingWriter.writerRun evts).tasks) :
    t.completeFired = if t.resolved then 1 else 0 := by
  have h0 : ∀ t0 ∈ (⟨[], [], []⟩ : StreamingWriter.WriterState).tasks,
      StreamingWriter.taskInv t0 := by
    intro t0 ht0
    simp at ht0
  exact StreamingWriter.writerFold_taskInv evts _ h0 t ht

/-- C5 witness: the at-most-once law evaluated on the cancellation trace -
the task there has resolved = true and completeFired = 1. -/
theorem onComplete_at_most_once_witness :
    (⟨0, "ab".data, 1, true, 1⟩ : StreamingWriter.WTask).completeFired
      = if (⟨0, "ab".data, 1, true, 1⟩ : StreamingWriter.WTask).resolved then 1 else 0 :=
  onComplete_at_most_once
    [StreamingWriter.WEvent.start 0 "ab".data,
     StreamingWriter.WEvent.step 0,
     StreamingWriter.WEvent.stopAll,
     StreamingWriter.WEvent.step 0]
    ⟨0, "ab".data, 1, true, 1⟩
    (by rw [show (StreamingWriter.writerRun
        [StreamingWriter.WEvent.start 0 "ab".data,
         StreamingWriter.WEvent.step 0,
         StreamingWriter.WEvent.stopAll,
         StreamingWriter.WEvent.step 0]).tasks
      = [⟨0, "ab".data, 1, true, 1⟩] from rfl]
        exact List.mem_singleton.mpr rfl)

/-- Oracle for a JSON.parse that rejects its input, as it does on the
concrete non-JSON payloads of the counterexample. -/
def jpReject : List Char → Option JsonVal := fun _ => none

/-- C6 counterexample: two chunk events whose data payloads fail the
structured parse are both appended raw by the catch fallback - the first
parse failure neither terminates the stream (the second event is still
processed) nor surfaces any Error action. -/
theorem chunk_parse_failure_appends_raw :
    runDecoder jpReject
        [⟨"chunk".data, "oops".data⟩, ⟨"chunk".data, "ok".data⟩]
      = [DecodeAct.append "oops".data, DecodeAct.append "ok".data]
      ∧ (runDecoder jpReject
          [⟨"chunk".data, "oops".data⟩, ⟨"chunk".data, "ok".data⟩]).any isTerminate
        = false
      ∧ runDecoder jpReject [⟨"final_json".data, "bad".data⟩, ⟨"chunk".data, "ok".data⟩]
        = [DecodeAct.append "ok".data] := by
  refine ⟨rfl, rfl, rfl⟩

/-- C6 (amended): unknown event names are ignored, but a data payload that
fails its structured parse does not terminate the stream either - a failing
chunk payload is appended to the surface raw by the catch fallback, and a
failing final_json or meta payload is logged and skipped, the loop
continuing with the remaining events; only an explicit error event throws,
ending the stream for that message with its data as the error (and the
part_005 variant of the decoder lacks even that error case). -/
theorem decoder_parse_failure_non_terminating :
    (∀ (jp : List Char → Option JsonVal) (name data : List Char),
        name ≠ "chunk".data → name ≠ "final_json".data → name ≠ "meta".data →
        name ≠ "error".data → processEvent jp ⟨name, data⟩ = [])
    ∧ (∀ (jp : List Char → Option JsonVal) (d : List Char),
        jp d = none → processEvent jp ⟨"chunk".data, d⟩ = [DecodeAct.append d])
    ∧ (∀ (jp : List Char → Option JsonVal) (d : List Char),
        jp d = none → processEvent jp ⟨"final_json".data, d⟩ = [])
    ∧ (∀ (jp : List Char → Option JsonVal) (d : List Char),
        jp d = none → processEvent jp ⟨"meta".data, d⟩ = [])
    ∧ (∀ (jp : List Char → Option JsonVal) (e : SSEvent) (es : List SSEvent),
        (processEvent jp e).any isTerminate = false →
        runDecoder jp (e :: es) = processEvent jp e ++ runDecoder jp es)
    ∧ (∀ (jp : List Char → Option JsonVal) (d : List Char) (es : List SSEvent),
        runDecoder jp (⟨"error".data, d⟩ :: es) = [DecodeAct.terminate d]) := by
  refine ⟨?_, ?_, ?_, ?_, ?_, ?_⟩
  · intro jp name data h1 h2 h3 h4
    simp only [processEvent, h1, h2, h3, h4, if_false]
  · intro jp d h
    simp only [processEvent, if_pos rfl, h]
    simp
  · intro jp d h
    have hne : ("final_json".data : List Char) ≠ "chunk".data := by decide
    simp only [processEvent, hne, if_false, if_pos rfl, h]
    simp
  · intro jp d h
    have hne1 : ("meta".data : List Char) ≠ "chunk".data := by decide
    have hne2 : ("meta".data : List Char) ≠ "final_json".data := by decide
    simp only [processEvent, hne1, hne2, if_false, if_pos rfl, h]
    simp
  · intro jp e es h
    simp only [runDecoder, h, Bool.false_eq_true, if_false]
  · intro jp d es
    have hne1 : ("error".data : List Char) ≠ "chunk".data := by decide
    have hne2 : ("error".data : List Char) ≠ "final_json".data := by decide
    have hne3 : ("error".data : List Char) ≠ "meta".data := by decide
    simp only [runDecoder, processEvent, hne1, hne2, hne3, if_false, if_pos rfl]
    rfl
